import Mathlib

/-!
Verification of the GLIF (glyph interchange format) parser in `src/lib.rs` of
the `experimental-ufoglifparser` repository.

The parser is a streaming state machine over XML events.  The XML tokenizer
(quick_xml) and the property-list parser (plist crate) are external
collaborators; following the spec they are modelled at the event level: a
document is a list of already-tokenized `XmlEvent`s (tag name plus decoded
attribute pairs), and end-of-stream is the end of the list.  Machine floats
(`f64`) are modelled as rationals (`ℚ`) with an exact decimal-literal parser
mirroring the accepted grammar of Rust's `f64::from_str` on finite decimal
literals; all numeric literals appearing in the verified claims are exactly
representable, and every comparison performed by the parser (the angle range
check) is order-exact on them.
-/

namespace UfoGlif

/-! ## Error taxonomy (`Error` and `ErrorKind` in lib.rs).
`InvalidCodepoint`, `InvalidInteger` and `InvalidNumber` retain the offending
text; the wrapped low-level cause objects are not modelled. -/

inductive ErrorKind where
  | BadIdentifier
  | DuplicateElement
  | DuplicateIdentifier
  | InvalidAnchor
  | InvalidAngle
  | InvalidCodepoint (text : String)
  | InvalidColor
  | InvalidGlyph
  | InvalidGuideline
  | InvalidImage
  | InvalidInteger (text : String)
  | InvalidNumber (text : String)
  | InvalidUnicode
  | LibMustBeDictionary
  | ParsePlist
  | TrailingData
  | UnexpectedAttribute
  | UnexpectedEof
  | UnsupportedGlifVersion
  | WrongFirstElement
deriving DecidableEq, Repr

/-- The two-tier error of lib.rs: an XML transport error or a semantic
parse error. -/
inductive Error where
  | xml
  | parse (kind : ErrorKind)
deriving DecidableEq, Repr

/-- Shallow embedding of Rust's `Result<α, Error>`. -/
inductive Res (α : Type) where
  | ok (val : α)
  | err (e : Error)
deriving DecidableEq, Repr

/-! ## Data model (the norad glyph record types used by lib.rs). -/

inductive GlifVersion where
  | V1
  | V2
deriving DecidableEq, Repr

/-- Modelled from the spec: norad's `Color` is four floats red, green, blue,
alpha; only the syntactic shape "r,g,b,a" is enforced, the parser does not
clamp to [0,1]. -/
structure Color where
  red : ℚ
  green : ℚ
  blue : ℚ
  alpha : ℚ
deriving DecidableEq, Repr

/-- Modelled from the spec: norad's `Identifier` is an opaque token; an anchor
or guideline identifier is modelled as its accepted string. -/
abbrev Identifier := String

structure Anchor where
  x : ℚ
  y : ℚ
  name : Option String := none
  color : Option Color := none
  identifier : Option Identifier := none
deriving DecidableEq, Repr

/-- norad's `Line`: the tagged line descriptor of a guideline. -/
inductive Line where
  | vertical (x : ℚ)
  | horizontal (y : ℚ)
  | angle (x : ℚ) (y : ℚ) (degrees : ℚ)
deriving DecidableEq, Repr

structure Guideline where
  line : Line
  name : Option String := none
  color : Option Color := none
  identifier : Option Identifier := none
deriving DecidableEq, Repr

/-- norad's `AffineTransform`; its `Default` is the identity transform
{1, 0, 0, 1, 0, 0}. -/
structure AffineTransform where
  x_scale : ℚ
  xy_scale : ℚ
  yx_scale : ℚ
  y_scale : ℚ
  x_offset : ℚ
  y_offset : ℚ
deriving DecidableEq, Repr

def AffineTransform.identity : AffineTransform :=
  { x_scale := 1, xy_scale := 0, yx_scale := 0, y_scale := 1, x_offset := 0, y_offset := 0 }

structure Image where
  file_name : String
  color : Option Color := none
  transform : AffineTransform := AffineTransform.identity
deriving DecidableEq, Repr

/-- Modelled from the spec: the external property-list dictionary (`Plist`).
Only its top-level key list is modelled; the typed values inside the
dictionary are out of scope. -/
abbrev Plist := List String

/-- Codepoints are Unicode scalar values, modelled as their `Nat` value
(Rust's `char`). -/
abbrev Codepoint := Nat

/-- The norad `Glyph` record built by the parser.  `Glyph::new_named` starts
from these defaults; `format` and `format_minor` are then overwritten by the
glyph-header builder. -/
structure Glyph where
  name : String
  format : GlifVersion
  format_minor : Nat := 0
  height : ℚ := 0
  width : ℚ := 0
  codepoints : List Codepoint := []
  anchors : List Anchor := []
  guidelines : List Guideline := []
  image : Option Image := none
  note : Option String := none
  lib : Plist := []
deriving DecidableEq, Repr

/-! ## Primitive value parsers. -/

def isDecDigit (c : Char) : Bool :=
  '0' ≤ c && c ≤ '9'

def natOfDigits (cs : List Char) : Nat :=
  cs.foldl (fun n c => 10 * n + (c.toNat - 48)) 0

/-- Split a character list at the first character satisfying `p`; the second
component is `none` when no such character occurs. -/
def splitAtFirst (p : Char → Bool) : List Char → List Char × Option (List Char)
  | [] => ([], none)
  | c :: cs =>
    if p c then ([], some cs)
    else
      let r := splitAtFirst p cs
      (c :: r.1, r.2)

/-- The natural number 10^n (spelled with `Nat.pow` so that every numeric
definition here evaluates by plain kernel reduction). -/
def pow10 (n : Nat) : Nat :=
  Nat.pow 10 n

/-- The mantissa part of a decimal float literal: `digits`, `digits.digits?`
or `.digits` (at least one digit overall), as accepted by `f64::from_str`.
The value ip.fp is the exact rational (ip·10^|fp| + fp) / 10^|fp|, built
with `mkRat` so that it evaluates by kernel reduction. -/
def parseMantissa (cs : List Char) : Option ℚ :=
  let ip := (splitAtFirst (fun c => c = '.') cs).1
  match (splitAtFirst (fun c => c = '.') cs).2 with
  | none =>
    if ip ≠ [] ∧ ip.all isDecDigit then some (natOfDigits ip) else none
  | some fp =>
    if (ip ≠ [] ∨ fp ≠ []) ∧ ip.all isDecDigit ∧ fp.all isDecDigit then
      some (mkRat (natOfDigits ip * pow10 fp.length + natOfDigits fp) (pow10 fp.length))
    else none

/-- The exponent part of a decimal float literal: optional sign then at least
one digit. -/
def parseExponent (cs : List Char) : Option ℤ :=
  match cs with
  | '+' :: ds => if ds ≠ [] ∧ ds.all isDecDigit then some (natOfDigits ds) else none
  | '-' :: ds => if ds ≠ [] ∧ ds.all isDecDigit then some (-(natOfDigits ds : ℤ)) else none
  | ds => if ds ≠ [] ∧ ds.all isDecDigit then some (natOfDigits ds) else none

/-- An unsigned decimal float literal, with optional exponent. -/
def parseUnsignedFloat (cs : List Char) : Option ℚ :=
  let m := (splitAtFirst (fun c => c = 'e' ∨ c = 'E') cs).1
  match (splitAtFirst (fun c => c = 'e' ∨ c = 'E') cs).2 with
  | none => parseMantissa m
  | some ecs =>
    match parseMantissa m, parseExponent ecs with
    | some mv, some ev =>
      some (if 0 ≤ ev then mkRat (mv.num * (pow10 ev.toNat : Nat)) mv.den
            else mkRat mv.num (mv.den * pow10 (-ev).toNat))
    | _, _ => none

/-- Rust's `f64::from_str` on finite decimal literals (optionally signed),
yielding the exactly represented rational.  Non-finite literals (`inf`,
`NaN`) are outside the rational model. -/
def parseFloat (s : String) : Option ℚ :=
  match s.data with
  | '+' :: cs => parseUnsignedFloat cs
  | '-' :: cs => Option.map (fun q => mkRat (-q.num) q.den) (parseUnsignedFloat cs)
  | cs => parseUnsignedFloat cs

/-- `parse_number` in lib.rs: `value.parse::<f64>()`, wrapping failure as
`InvalidNumber` with the offending text. -/
def parse_number (value : String) : Res ℚ :=
  match parseFloat value with
  | some q => .ok q
  | none => .err (.parse (.InvalidNumber value))

def hexDigitValue (c : Char) : Option Nat :=
  if '0' ≤ c && c ≤ '9' then some (c.toNat - 48)
  else if 'a' ≤ c && c ≤ 'f' then some (c.toNat - 87)
  else if 'A' ≤ c && c ≤ 'F' then some (c.toNat - 55)
  else none

def natOfHexDigits : List Char → Option Nat
  | [] => some 0
  | c :: cs =>
    match hexDigitValue c, natOfHexDigits cs with
    | some d, some n => some (n * 16 + d)
    | _, _ => none

/-- `u32::from_str_radix(value, 16)`: an optional leading '+', then at least
one hex digit, with overflow above `u32::MAX` rejected. -/
def parseHexU32 (s : String) : Option Nat :=
  let cs := match s.data with
    | '+' :: r => r
    | r => r
  if cs = [] then none
  else
    match natOfHexDigits cs.reverse with
    | some n => if n < 2 ^ 32 then some n else none
    | none => none

/-- A Unicode scalar value: what Rust's `char::try_from(u32)` accepts. -/
def isScalarValue (n : Nat) : Bool :=
  n < 0xD800 || (0xE000 ≤ n && n < 0x110000)

/-- `parse_codepoint` in lib.rs: base-16 `u32` then `char::try_from`; both
failure modes carry the offending text as `InvalidCodepoint`. -/
def parse_codepoint (value : String) : Res Codepoint :=
  match parseHexU32 value with
  | none => .err (.parse (.InvalidCodepoint value))
  | some n =>
    if isScalarValue n then .ok n
    else .err (.parse (.InvalidCodepoint value))

/-- `value.parse::<u32>()` for the `formatMinor` attribute: optional leading
'+', decimal digits, overflow above `u32::MAX` rejected. -/
def parseU32 (s : String) : Option Nat :=
  let cs := match s.data with
    | '+' :: r => r
    | r => r
  if cs ≠ [] ∧ cs.all isDecDigit then
    let n := natOfDigits cs
    if n < 2 ^ 32 then some n else none
  else none

/-- Split a character list on a separator character (like `str::split`). -/
def splitOnChar (sep : Char) : List Char → List (List Char)
  | [] => [[]]
  | c :: cs =>
    let r := splitOnChar sep cs
    if c = sep then [] :: r
    else
      match r with
      | h :: t => (c :: h) :: t
      | [] => [[c]]

/-- `parse_color` in lib.rs via norad's `Color` `FromStr`.  Modelled from the
spec: the value must be exactly four comma-separated float fields
"r,g,b,a"; any malformation is `InvalidColor`. -/
def parse_color (value : String) : Res Color :=
  match splitOnChar ',' value.data with
  | [r, g, b, a] =>
    match parseUnsignedFloatSigned r, parseUnsignedFloatSigned g,
        parseUnsignedFloatSigned b, parseUnsignedFloatSigned a with
    | some rv, some gv, some bv, some av =>
      .ok { red := rv, green := gv, blue := bv, alpha := av }
    | _, _, _, _ => .err (.parse .InvalidColor)
  | _ => .err (.parse .InvalidColor)
where
  /-- A possibly signed float literal over a character list. -/
  parseUnsignedFloatSigned (cs : List Char) : Option ℚ :=
    match cs with
    | '+' :: r => parseUnsignedFloat r
    | '-' :: r => Option.map (fun q => mkRat (-q.num) q.den) (parseUnsignedFloat r)
    | r => parseUnsignedFloat r

/-- Modelled from the spec: norad's `Identifier::new` validation rule —
non-empty, bounded length (at most 100), printable-ASCII charset
(0x20 to 0x7E). -/
def identifierValid (s : String) : Bool :=
  decide (1 ≤ s.data.length) && decide (s.data.length ≤ 100) &&
    s.data.all (fun c => 0x20 ≤ c.toNat && c.toNat ≤ 0x7E)

/-- `parse_identifier` in lib.rs: version gate first (identifiers are a V2+
feature), then syntax validation, then insertion into the running
identifier set (`HashSet<Identifier>`, modelled as the list of accepted
identifiers, insertion at the head). -/
def parse_identifier (value : String) (identifier_set : List Identifier)
    (glif_format : GlifVersion) : Res (Identifier × List Identifier) :=
  if glif_format = .V1 then .err (.parse .UnexpectedAttribute)
  else
    if identifierValid value then
      if value ∈ identifier_set then .err (.parse .DuplicateIdentifier)
      else .ok (value, value :: identifier_set)
    else .err (.parse .BadIdentifier)

/-! ## XML event model.
The quick_xml tokenizer is an external collaborator: a document is its list
of structural events, each carrying the tag name and the already decoded,
unescaped attribute pairs.  End-of-stream (`Event::Eof`) is the end of the
list.  `trim_text(true)` means whitespace-only text events do not occur. -/

inductive XmlEvent where
  | startTag (name : String) (attributes : List (String × String))
  | emptyTag (name : String) (attributes : List (String × String))
  | endTag (name : String)
  | text (s : String)
  | cdata (s : String)
  | comment (s : String)
  | decl
  | doctype
  | procInst
deriving DecidableEq, Repr

/-! ## Element builders.
Each mirrors the corresponding `parse_*` function of lib.rs: a left-to-right
loop over the attribute pairs accumulating optional fields (the Rust `for`
loop over `Attributes`, an early `return` on the first error), followed by
the final presence checks.  The attribute-key dispatch is written as the
same ordered comparison chain as the Rust `match attr.key`. -/

/-- Attribute loop of `parse_glyph`: accumulates (name, format, format_minor);
`name` attributes append (`push_str`), `format` must be "1" or "2". -/
def glyphAttrs : List (String × String) → String × Option GlifVersion × Nat →
    Res (String × Option GlifVersion × Nat)
  | [], acc => .ok acc
  | (k, v) :: rest, (name, format, format_minor) =>
    if k = "name" then glyphAttrs rest (name ++ v, format, format_minor)
    else if k = "format" then
      if v = "1" then glyphAttrs rest (name, some .V1, format_minor)
      else if v = "2" then glyphAttrs rest (name, some .V2, format_minor)
      else .err (.parse .UnsupportedGlifVersion)
    else if k = "formatMinor" then
      match parseU32 v with
      | some n => glyphAttrs rest (name, format, n)
      | none => .err (.parse (.InvalidInteger v))
    else .err (.parse .UnexpectedAttribute)

/-- `parse_glyph` in lib.rs: build the glyph header from the `glyph` tag's
attributes; requires a non-empty name and a format. -/
def parse_glyph (attributes : List (String × String)) : Res Glyph :=
  match glyphAttrs attributes ("", none, 0) with
  | .err e => .err e
  | .ok (name, format, format_minor) =>
    match format with
    | some fmt =>
      if name = "" then .err (.parse .InvalidGlyph)
      else .ok { name := name, format := fmt, format_minor := format_minor }
    | none => .err (.parse .InvalidGlyph)

/-- Attribute loop of `parse_advance`; accumulates (height, width), both
defaulting to 0.0. -/
def advanceAttrs : List (String × String) → ℚ × ℚ → Res (ℚ × ℚ)
  | [], acc => .ok acc
  | (k, v) :: rest, (height, width) =>
    if k = "height" then
      match parse_number v with
      | .ok n => advanceAttrs rest (n, width)
      | .err e => .err e
    else if k = "width" then
      match parse_number v with
      | .ok n => advanceAttrs rest (height, n)
      | .err e => .err e
    else .err (.parse .UnexpectedAttribute)

/-- `parse_advance` in lib.rs: returns the (height, width) pair. -/
def parse_advance (attributes : List (String × String)) : Res (ℚ × ℚ) :=
  advanceAttrs attributes (0, 0)

/-- Attribute loop of `parse_unicode`: only `hex` is recognized. -/
def unicodeAttrs : List (String × String) → Option Codepoint → Res (Option Codepoint)
  | [], acc => .ok acc
  | (k, v) :: rest, codepoint =>
    if k = "hex" then
      match parse_codepoint v with
      | .ok c => unicodeAttrs rest (some c)
      | .err e => .err e
    else
      let _ := codepoint
      .err (.parse .UnexpectedAttribute)

/-- `parse_unicode` in lib.rs: a missing `hex` attribute is `InvalidUnicode`. -/
def parse_unicode (attributes : List (String × String)) : Res Codepoint :=
  match unicodeAttrs attributes none with
  | .err e => .err e
  | .ok (some chr) => .ok chr
  | .ok none => .err (.parse .InvalidUnicode)

/-- Accumulator of the `parse_anchor` attribute loop. -/
structure AnchorAcc where
  x : Option ℚ := none
  y : Option ℚ := none
  name : Option String := none
  color : Option Color := none
  identifier : Option Identifier := none
deriving DecidableEq, Repr

/-- Attribute loop of `parse_anchor`, threading the identifier set. -/
def anchorAttrs (glif_format : GlifVersion) :
    List (String × String) → AnchorAcc → List Identifier →
    Res (AnchorAcc × List Identifier)
  | [], acc, set => .ok (acc, set)
  | (k, v) :: rest, acc, set =>
    if k = "x" then
      match parse_number v with
      | .ok n => anchorAttrs glif_format rest { acc with x := some n } set
      | .err e => .err e
    else if k = "y" then
      match parse_number v with
      | .ok n => anchorAttrs glif_format rest { acc with y := some n } set
      | .err e => .err e
    else if k = "name" then anchorAttrs glif_format rest { acc with name := some v } set
    else if k = "color" then
      match parse_color v with
      | .ok c => anchorAttrs glif_format rest { acc with color := some c } set
      | .err e => .err e
    else if k = "identifier" then
      match parse_identifier v set glif_format with
      | .ok (id, set') => anchorAttrs glif_format rest { acc with identifier := some id } set'
      | .err e => .err e
    else .err (.parse .UnexpectedAttribute)

/-- `parse_anchor` in lib.rs: both `x` and `y` must be present, else
`InvalidAnchor`. -/
def parse_anchor (attributes : List (String × String)) (identifier_set : List Identifier)
    (glif_format : GlifVersion) : Res (Anchor × List Identifier) :=
  match anchorAttrs glif_format attributes {} identifier_set with
  | .err e => .err e
  | .ok (acc, set') =>
    match acc.x, acc.y with
    | some x, some y =>
      .ok ({ x := x, y := y, name := acc.name, color := acc.color,
             identifier := acc.identifier }, set')
    | _, _ => .err (.parse .InvalidAnchor)

/-- Accumulator of the `parse_guideline` attribute loop. -/
structure GuidelineAcc where
  x : Option ℚ := none
  y : Option ℚ := none
  angle : Option ℚ := none
  name : Option String := none
  color : Option Color := none
  identifier : Option Identifier := none
deriving DecidableEq, Repr

/-- Attribute loop of `parse_guideline`; the `angle` attribute is
range-checked to [0, 360] as it is parsed. -/
def guidelineAttrs (glif_format : GlifVersion) :
    List (String × String) → GuidelineAcc → List Identifier →
    Res (GuidelineAcc × List Identifier)
  | [], acc, set => .ok (acc, set)
  | (k, v) :: rest, acc, set =>
    if k = "x" then
      match parse_number v with
      | .ok n => guidelineAttrs glif_format rest { acc with x := some n } set
      | .err e => .err e
    else if k = "y" then
      match parse_number v with
      | .ok n => guidelineAttrs glif_format rest { acc with y := some n } set
      | .err e => .err e
    else if k = "angle" then
      match parse_number v with
      | .ok angle_value =>
        if ¬(0 ≤ angle_value ∧ angle_value ≤ 360) then .err (.parse .InvalidAngle)
        else guidelineAttrs glif_format rest { acc with angle := some angle_value } set
      | .err e => .err e
    else if k = "name" then guidelineAttrs glif_format rest { acc with name := some v } set
    else if k = "color" then
      match parse_color v with
      | .ok c => guidelineAttrs glif_format rest { acc with color := some c } set
      | .err e => .err e
    else if k = "identifier" then
      match parse_identifier v set glif_format with
      | .ok (id, set') => guidelineAttrs glif_format rest { acc with identifier := some id } set'
      | .err e => .err e
    else .err (.parse .UnexpectedAttribute)

/-- `parse_guideline` in lib.rs: the (x, y, angle) presence pattern selects
the line shape; any pattern other than the three legal ones is
`InvalidGuideline`. -/
def parse_guideline (attributes : List (String × String)) (identifier_set : List Identifier)
    (glif_format : GlifVersion) : Res (Guideline × List Identifier) :=
  match guidelineAttrs glif_format attributes {} identifier_set with
  | .err e => .err e
  | .ok (acc, set') =>
    match acc.x, acc.y, acc.angle with
    | some x, none, none =>
      .ok ({ line := .vertical x, name := acc.name, color := acc.color,
             identifier := acc.identifier }, set')
    | none, some y, none =>
      .ok ({ line := .horizontal y, name := acc.name, color := acc.color,
             identifier := acc.identifier }, set')
    | some x, some y, some degrees =>
      .ok ({ line := .angle x y degrees, name := acc.name, color := acc.color,
             identifier := acc.identifier }, set')
    | _, _, _ => .err (.parse .InvalidGuideline)

/-- Accumulator of the `parse_image` attribute loop. -/
structure ImageAcc where
  filename : Option String := none
  color : Option Color := none
  transform : AffineTransform := AffineTransform.identity
deriving DecidableEq, Repr

/-- Attribute loop of `parse_image`: six transform floats each independently
override the identity default. -/
def imageAttrs : List (String × String) → ImageAcc → Res ImageAcc
  | [], acc => .ok acc
  | (k, v) :: rest, acc =>
    if k = "xScale" then
      match parse_number v with
      | .ok n => imageAttrs rest { acc with transform.x_scale := n }
      | .err e => .err e
    else if k = "xyScale" then
      match parse_number v with
      | .ok n => imageAttrs rest { acc with transform.xy_scale := n }
      | .err e => .err e
    else if k = "yxScale" then
      match parse_number v with
      | .ok n => imageAttrs rest { acc with transform.yx_scale := n }
      | .err e => .err e
    else if k = "yScale" then
      match parse_number v with
      | .ok n => imageAttrs rest { acc with transform.y_scale := n }
      | .err e => .err e
    else if k = "xOffset" then
      match parse_number v with
      | .ok n => imageAttrs rest { acc with transform.x_offset := n }
      | .err e => .err e
    else if k = "yOffset" then
      match parse_number v with
      | .ok n => imageAttrs rest { acc with transform.y_offset := n }
      | .err e => .err e
    else if k = "color" then
      match parse_color v with
      | .ok c => imageAttrs rest { acc with color := some c }
      | .err e => .err e
    else if k = "fileName" then imageAttrs rest { acc with filename := some v }
    else .err (.parse .UnexpectedAttribute)

/-- `parse_image` in lib.rs: `fileName` is required, else `InvalidImage`. -/
def parse_image (attributes : List (String × String)) : Res Image :=
  match imageAttrs attributes {} with
  | .err e => .err e
  | .ok acc =>
    match acc.filename with
    | some file_name =>
      .ok { file_name := file_name, color := acc.color, transform := acc.transform }
    | none => .err (.parse .InvalidImage)

/-! ## Tokenizer-level consumption helpers (quick_xml `read_to_end` and
`read_text`), at the event level. -/

/-- quick_xml `Reader::read_to_end(name)`: consume events up to and including
the matching end tag for `name`, tracking the nesting depth of same-named
start tags.  Returns the inner events (the consumed span without the final
end tag) and the remaining events; `none` when the stream ends first (an XML
error in quick_xml). -/
def readToEnd (name : String) (depth : Nat) : List XmlEvent →
    Option (List XmlEvent × List XmlEvent)
  | [] => none
  | ev :: rest =>
    match ev with
    | .endTag n =>
      if n = name then
        if depth = 0 then some ([], rest)
        else Option.map (fun p => (ev :: p.1, p.2)) (readToEnd name (depth - 1) rest)
      else Option.map (fun p => (ev :: p.1, p.2)) (readToEnd name depth rest)
    | .startTag n _ =>
      Option.map (fun p => (ev :: p.1, p.2))
        (readToEnd name (if n = name then depth + 1 else depth) rest)
    | _ => Option.map (fun p => (ev :: p.1, p.2)) (readToEnd name depth rest)

/-- quick_xml `Reader::read_text(name)`: one text event followed by the
matching end tag (the span up to it being consumed by `read_to_end`), or an
immediate matching end tag yielding the empty string; anything else is a
tokenizer-level error (`none`). -/
def read_text (name : String) (events : List XmlEvent) :
    Option (String × List XmlEvent) :=
  match events with
  | .text s :: rest =>
    match readToEnd name 0 rest with
    | some (_, rest') => some (s, rest')
    | none => none
  | .endTag n :: rest => if n = name then some ("", rest) else none
  | _ => none

/-- Modelled from the spec: the external property-list parser (plist crate)
is an out-of-scope collaborator that turns the `lib` sub-document into a
dictionary value or fails; a parse result that is not a dictionary at the
top level is rejected separately.  We model its outcome by the root element
of the delegated span: a `dict` root parses to a dictionary (contents not
modelled further), any other root element is a non-dictionary value, and a
span with no root element fails to parse. -/
inductive PlistOutcome where
  | dict (keys : Plist)
  | nonDict
  | failed
deriving DecidableEq, Repr

def firstElementName : List XmlEvent → Option String
  | [] => none
  | .startTag n _ :: _ => some n
  | .emptyTag n _ :: _ => some n
  | _ :: rest => firstElementName rest

/-- Modelled from the spec: `plist::Value::from_reader_xml` followed by
`into_dictionary`, summarized as a `PlistOutcome` of the delegated span. -/
def plistParse (inner : List XmlEvent) : PlistOutcome :=
  match firstElementName inner with
  | some "dict" => .dict []
  | some _ => .nonDict
  | none => .failed

/-! ## The parse driver (`parse_glif` in lib.rs). -/

/-- The `State` enum local to `parse_glif`. -/
inductive PState where
  | start
  | inGlyph (glyph : Glyph)
  | done (glyph : Glyph)
deriving DecidableEq, Repr

/-- The driver's mutable locals: the state machine state plus the
`seen_advance` / `seen_lib` flags and the running identifier set. -/
structure DriverSt where
  st : PState
  seen_advance : Bool := false
  seen_lib : Bool := false
  identifier_set : List Identifier := []
deriving DecidableEq, Repr

/-- Outcome of one iteration of the driver loop: either continue with the
updated locals and remaining events, or return the completed glyph. -/
inductive StepOut where
  | next (d : DriverSt) (rest : List XmlEvent)
  | finished (glyph : Glyph)
deriving DecidableEq, Repr

/-- One iteration of the `parse_glif` event loop, with the match arms in the
order of the Rust source: comments and declarations are transparent in every
state; then the per-state arms; `Done` rejects anything but end-of-stream as
`TrailingData`; end-of-stream anywhere else is `UnexpectedEof`; every
remaining combination is the catch-all no-op pass-through. -/
def stepD (d : DriverSt) (events : List XmlEvent) : Res StepOut :=
  match events with
  | [] =>
    match d.st with
    | .done glyph => .ok (.finished glyph)
    | _ => .err (.parse .UnexpectedEof)
  | ev :: rest =>
    match ev with
    | .comment _ => .ok (.next d rest)
    | .decl => .ok (.next d rest)
    | _ =>
      match d.st with
      | .start =>
        match ev with
        | .startTag n attrs =>
          if n = "glyph" then
            match parse_glyph attrs with
            | .ok glyph => .ok (.next { d with st := .inGlyph glyph } rest)
            | .err e => .err e
          else .err (.parse .WrongFirstElement)
        | .emptyTag _ _ => .err (.parse .WrongFirstElement)
        | _ => .ok (.next d rest)
      | .inGlyph glyph =>
        match ev with
        | .emptyTag n attrs =>
          if n = "unicode" then
            match parse_unicode attrs with
            | .ok codepoint =>
              let glyph' := { glyph with codepoints := glyph.codepoints ++ [codepoint] }
              .ok (.next { d with st := .inGlyph glyph' } rest)
            | .err e => .err e
          else if n = "anchor" then
            match parse_anchor attrs d.identifier_set glyph.format with
            | .ok (anchor, set') =>
              let glyph' := { glyph with anchors := glyph.anchors ++ [anchor] }
              .ok (.next { d with st := .inGlyph glyph', identifier_set := set' } rest)
            | .err e => .err e
          else if n = "guideline" then
            match parse_guideline attrs d.identifier_set glyph.format with
            | .ok (guideline, set') =>
              let glyph' := { glyph with guidelines := glyph.guidelines ++ [guideline] }
              .ok (.next { d with st := .inGlyph glyph', identifier_set := set' } rest)
            | .err e => .err e
          else if n = "advance" then
            if d.seen_advance then .err (.parse .DuplicateElement)
            else
              match parse_advance attrs with
              | .ok (height, width) =>
                let glyph' := { glyph with height := height, width := width }
                .ok (.next { d with st := .inGlyph glyph', seen_advance := true } rest)
              | .err e => .err e
          else if n = "image" then
            if glyph.image.isSome then .err (.parse .DuplicateElement)
            else
              match parse_image attrs with
              | .ok image =>
                let glyph' := { glyph with image := some image }
                .ok (.next { d with st := .inGlyph glyph' } rest)
              | .err e => .err e
          else .ok (.next d rest)
        | .startTag n _ =>
          if n = "note" then
            if glyph.note.isSome then .err (.parse .DuplicateElement)
            else
              match read_text "note" rest with
              | some (note, rest') =>
                let glyph' := { glyph with note := some note }
                .ok (.next { d with st := .inGlyph glyph' } rest')
              | none => .err .xml
          else if n = "lib" then
            if d.seen_lib then .err (.parse .DuplicateElement)
            else
              match readToEnd "lib" 0 rest with
              | some (inner, rest') =>
                match plistParse inner with
                | .dict keys =>
                  let glyph' := { glyph with lib := keys }
                  .ok (.next { d with st := .inGlyph glyph', seen_lib := true } rest')
                | .nonDict => .err (.parse .LibMustBeDictionary)
                | .failed => .err (.parse .ParsePlist)
              | none => .err .xml
          else .ok (.next d rest)
        | .endTag n =>
          if n = "glyph" then .ok (.next { d with st := .done glyph } rest)
          else .ok (.next d rest)
        | _ => .ok (.next d rest)
      | .done _ => .err (.parse .TrailingData)

theorem readToEnd_length {name : String} :
    ∀ {events : List XmlEvent} {depth : Nat} {inner rest : List XmlEvent},
      readToEnd name depth events = some (inner, rest) → rest.length < events.length := by
  intro events
  induction events with
  | nil => intro depth inner rest h; simp [readToEnd] at h
  | cons ev tl ih =>
    intro depth inner rest h
    have step : ∀ (e : XmlEvent) (D : Nat),
        Option.map (fun p => (e :: p.1, p.2)) (readToEnd name D tl) = some (inner, rest) →
        rest.length < tl.length + 1 := by
      intro e D hm
      rcases hr : readToEnd name D tl with _ | ⟨a, b⟩
      · rw [hr] at hm; simp at hm
      · rw [hr] at hm
        simp only [Option.map_some', Option.some.injEq, Prod.mk.injEq] at hm
        rw [← hm.2]
        exact Nat.lt_trans (ih hr) (Nat.lt_succ_self _)
    cases ev <;> simp only [readToEnd] at h
    case endTag n =>
      by_cases hn : n = name
      · rw [if_pos hn] at h
        by_cases hd : depth = 0
        · rw [if_pos hd] at h
          simp only [Option.some.injEq, Prod.mk.injEq] at h
          rw [← h.2]
          exact Nat.lt_succ_self _
        · rw [if_neg hd] at h
          exact List.length_cons _ _ ▸ step _ _ h
      · rw [if_neg hn] at h
        exact List.length_cons _ _ ▸ step _ _ h
    all_goals exact List.length_cons _ _ ▸ step _ _ h

theorem read_text_length {name : String} {events : List XmlEvent} {s : String}
    {rest : List XmlEvent} (h : read_text name events = some (s, rest)) :
    rest.length < events.length := by
  cases events with
  | nil => simp [read_text] at h
  | cons ev tl =>
    cases ev <;> simp only [read_text] at h
    case text t =>
      rcases hr : readToEnd name 0 tl with _ | ⟨p1, p2⟩
      · rw [hr] at h; simp at h
      · rw [hr] at h
        simp only [Option.some.injEq, Prod.mk.injEq] at h
        rw [← h.2]
        exact Nat.lt_trans (readToEnd_length hr) (Nat.lt_succ_self _)
    case endTag n =>
      by_cases hn : n = name
      · rw [if_pos hn] at h
        simp only [Option.some.injEq, Prod.mk.injEq] at h
        rw [← h.2]
        exact Nat.lt_succ_self _
      · rw [if_neg hn] at h; simp at h
    all_goals simp at h

/-- Every continuing step of the driver consumes at least one event. -/
theorem stepD_length {d : DriverSt} {events : List XmlEvent} {d' : DriverSt}
    {rest : List XmlEvent} (h : stepD d events = .ok (.next d' rest)) :
    rest.length < events.length := by
  cases events with
  | nil =>
    simp only [stepD] at h
    rcases hst : d.st with _ | g | g <;> rw [hst] at h <;> simp at h
  | cons ev tl =>
    have hlt : ∀ {r : List XmlEvent}, r = tl → r.length < (ev :: tl).length := by
      intro r hr; rw [hr]; exact Nat.lt_succ_self _
    simp only [stepD] at h
    repeat' split at h
    all_goals
      first
      | (simp only [Res.ok.injEq, StepOut.next.injEq] at h
         first
         | exact hlt h.2.symm
         | (rename_i heq
            exact Nat.lt_succ_of_lt (h.2 ▸ read_text_length heq))
         | (rename_i heq _ _ _
            exact Nat.lt_succ_of_lt (h.2 ▸ readToEnd_length heq)))
      | (exfalso; simp at h)

/-- The initial driver locals of `parse_glif`. -/
def glifInit : DriverSt :=
  { st := .start, seen_advance := false, seen_lib := false, identifier_set := [] }

/-- The `parse_glif` event loop: iterate `stepD` until it returns or fails.
The fuel argument only bounds the iteration count for structural recursion;
by `stepD_length` every continuing step consumes at least one event, so any
fuel exceeding the number of events is enough (`runFuel_congr`), and the
fuel-exhaustion branch is unreachable from `parse_glif`. -/
def runFuel : Nat → DriverSt → List XmlEvent → Res Glyph
  | 0, _, _ => .err (.parse .UnexpectedEof)
  | fuel + 1, d, events =>
    match stepD d events with
    | .err e => .err e
    | .ok (.finished glyph) => .ok glyph
    | .ok (.next d' rest) => runFuel fuel d' rest

/-- `parse_glif` in lib.rs, at the event level: run the state machine from
the `Start` state with no element seen and an empty identifier set. -/
def parse_glif (events : List XmlEvent) : Res Glyph :=
  runFuel (events.length + 1) glifInit events

/-- The driver loop's result does not depend on the fuel, as long as the
fuel exceeds the number of remaining events: the loop always terminates by
consuming the stream. -/
theorem runFuel_congr : ∀ {f1 f2 : Nat} {d : DriverSt} {events : List XmlEvent},
    events.length < f1 → events.length < f2 →
    runFuel f1 d events = runFuel f2 d events := by
  intro f1
  induction f1 with
  | zero => intro f2 d events h1 h2; omega
  | succ n ih =>
    intro f2 d events h1 h2
    cases f2 with
    | zero => omega
    | succ m =>
      simp only [runFuel]
      rcases hs : stepD d events with (⟨d', rest⟩ | g) | e <;> simp only [hs]
      exact ih (Nat.lt_of_lt_of_le (stepD_length hs) (Nat.lt_succ_iff.mp h1))
        (Nat.lt_of_lt_of_le (stepD_length hs) (Nat.lt_succ_iff.mp h2))

end UfoGlif

namespace UfoGlif

/-! ## Concrete documents used by the claims. -/

/-- The event stream of `<glyph name="period" format="2"><advance height="123"
width="268"/><unicode hex="002E"/></glyph>`. -/
def periodDoc : List XmlEvent :=
  [.startTag "glyph" [("name", "period"), ("format", "2")],
   .emptyTag "advance" [("height", "123"), ("width", "268")],
   .emptyTag "unicode" [("hex", "002E")],
   .endTag "glyph"]

/-- The opening `<glyph name="a" format="2">` header event. -/
def glyphHeader2 : XmlEvent :=
  .startTag "glyph" [("name", "a"), ("format", "2")]

/-- The opening `<glyph name="a" format="1">` header event. -/
def glyphHeader1 : XmlEvent :=
  .startTag "glyph" [("name", "a"), ("format", "1")]

/-- The event span of `<lib><dict></dict></lib>`. -/
def libElem : List XmlEvent :=
  [.startTag "lib" [], .startTag "dict" [], .endTag "dict", .endTag "lib"]

/-- The event span of `<note>hi</note>`. -/
def noteElem : List XmlEvent :=
  [.startTag "note" [], .text "hi", .endTag "note"]

def twoAdvanceDoc : List XmlEvent :=
  [glyphHeader2, .emptyTag "advance" [], .emptyTag "advance" [], .endTag "glyph"]

def twoLibDoc : List XmlEvent :=
  glyphHeader2 :: libElem ++ libElem ++ [.endTag "glyph"]

def twoNoteDoc : List XmlEvent :=
  glyphHeader2 :: noteElem ++ noteElem ++ [.endTag "glyph"]

def twoImageDoc : List XmlEvent :=
  [glyphHeader2, .emptyTag "image" [("fileName", "f.png")],
   .emptyTag "image" [("fileName", "f.png")], .endTag "glyph"]

/-- A document with exactly one `advance`, one `note`, one `lib` and one
`image` element. -/
def oneOfEachDoc : List XmlEvent :=
  glyphHeader2 :: .emptyTag "advance" [("height", "1")] ::
    noteElem ++ libElem ++ [.emptyTag "image" [("fileName", "f.png")], .endTag "glyph"]

/-! ## Claim C1. -/

/-- Claim C1: for the document `<glyph name="period" format="2"><advance
height="123" width="268"/><unicode hex="002E"/></glyph>`, `parse_glif`
succeeds and the returned glyph record has name "period", format version V2,
advance height 123.0, advance width 268.0, and codepoint sequence exactly
[U+002E]. -/
theorem c1_end_to_end_period :
    parse_glif periodDoc =
      .ok { name := "period", format := .V2, format_minor := 0, height := 123,
            width := 268, codepoints := [0x2E], anchors := [], guidelines := [],
            image := none, note := none, lib := [] } := by
  decide

/-! ## Claim C5. -/

/-- Claim C5: a document with two `advance`, two `lib`, two `note`, or two
`image` elements under one glyph always fails with `DuplicateElement`, while
an otherwise valid document with exactly one of each of these elements
succeeds. -/
theorem c5_element_cardinality :
    parse_glif twoAdvanceDoc = .err (.parse .DuplicateElement) ∧
    parse_glif twoLibDoc = .err (.parse .DuplicateElement) ∧
    parse_glif twoNoteDoc = .err (.parse .DuplicateElement) ∧
    parse_glif twoImageDoc = .err (.parse .DuplicateElement) ∧
    parse_glif oneOfEachDoc =
      .ok { name := "a", format := .V2, format_minor := 0, height := 1, width := 0,
            codepoints := [], anchors := [], guidelines := [],
            image := some { file_name := "f.png", color := none,
                            transform := AffineTransform.identity },
            note := some "hi", lib := [] } := by
  refine ⟨by decide, by decide, by decide, by decide, by decide⟩

/-! ## Claim C6 (corrected).
The arm accepting the first element matches only an opening (`Event::Start`)
`glyph` tag; a self-closing (`Event::Empty`) `glyph` tag falls into the
`WrongFirstElement` arm even when its attributes are valid. -/

/-- Claim C6, counterexample: the self-closing first element
`<glyph name="x" format="2"/>` has valid attributes (its header builds
fine), yet the driver rejects it with `WrongFirstElement` instead of
entering the `InGlyph` state. -/
theorem c6_empty_glyph_counterexample :
    parse_glyph [("name", "x"), ("format", "2")] = .ok { name := "x", format := .V2 } ∧
    stepD glifInit [.emptyTag "glyph" [("name", "x"), ("format", "2")]] =
      .err (.parse .WrongFirstElement) ∧
    parse_glif [.emptyTag "glyph" [("name", "x"), ("format", "2")]] =
      .err (.parse .WrongFirstElement) := by
  refine ⟨by decide, by decide, by decide⟩

/-- Claim C6 as amended: in the `Start` state, an opening event with tag
`glyph` and valid attributes builds the glyph header and enters `InGlyph`;
an opening event with any other tag, and every self-closing event —
including a self-closing `glyph` — fails with `WrongFirstElement`. -/
theorem c6_start_transitions (d : DriverSt) (rest : List XmlEvent)
    (hst : d.st = .start) :
    (∀ (attrs : List (String × String)) (g : Glyph), parse_glyph attrs = .ok g →
      stepD d (.startTag "glyph" attrs :: rest) =
        .ok (.next { d with st := .inGlyph g } rest)) ∧
    (∀ (n : String) (attrs : List (String × String)), n ≠ "glyph" →
      stepD d (.startTag n attrs :: rest) = .err (.parse .WrongFirstElement)) ∧
    (∀ (n : String) (attrs : List (String × String)),
      stepD d (.emptyTag n attrs :: rest) = .err (.parse .WrongFirstElement)) := by
  refine ⟨?_, ?_, ?_⟩
  · intro attrs g h
    simp [stepD, hst, h]
  · intro n attrs hn
    simp [stepD, hst, hn]
  · intro n attrs
    simp [stepD, hst]

/-- Witness for `c6_start_transitions`: an opening `glyph` tag with valid
attributes builds the header and enters `InGlyph`. -/
theorem c6_start_transitions_witness :
    stepD glifInit [.startTag "glyph" [("name", "x"), ("format", "2")]] =
      .ok (.next { glifInit with st := .inGlyph { name := "x", format := .V2 } } []) :=
  (c6_start_transitions glifInit [] rfl).1 [("name", "x"), ("format", "2")]
    { name := "x", format := .V2 } (by decide)

/-! ## Claim C4. -/

/-- A V1 document whose anchor carries an identifier attribute. -/
def v1AnchorIdentDoc : List XmlEvent :=
  [glyphHeader1, .emptyTag "anchor" [("x", "1"), ("y", "1"), ("identifier", "a1")],
   .endTag "glyph"]

/-- A V1 document whose guideline carries an identifier attribute. -/
def v1GuidelineIdentDoc : List XmlEvent :=
  [glyphHeader1, .emptyTag "guideline" [("x", "1"), ("identifier", "g1")],
   .endTag "glyph"]

/-- The same anchor document with `format="2"`. -/
def v2AnchorIdentDoc : List XmlEvent :=
  [glyphHeader2, .emptyTag "anchor" [("x", "1"), ("y", "1"), ("identifier", "a1")],
   .endTag "glyph"]

/-- Claim C4: under format version V1, `parse_identifier` fails with
`UnexpectedAttribute` for every candidate value and every registry state —
in particular before the syntax validation (`BadIdentifier`) and before the
duplicate check (`DuplicateIdentifier`) could fire — so an identifier
attribute on an anchor or guideline of a V1 document fails the parse with
`UnexpectedAttribute`, while the same document with `format="2"` and a
valid, unique identifier succeeds. -/
theorem c4_identifier_version_gate :
    (∀ (value : String) (identifier_set : List Identifier),
      parse_identifier value identifier_set .V1 = .err (.parse .UnexpectedAttribute)) ∧
    parse_glif v1AnchorIdentDoc = .err (.parse .UnexpectedAttribute) ∧
    parse_glif v1GuidelineIdentDoc = .err (.parse .UnexpectedAttribute) ∧
    parse_glif v2AnchorIdentDoc =
      .ok { name := "a", format := .V2, format_minor := 0, height := 0, width := 0,
            codepoints := [],
            anchors := [{ x := 1, y := 1, name := none, color := none,
                          identifier := some "a1" }],
            guidelines := [], image := none, note := none, lib := [] } := by
  refine ⟨?_, by decide, by decide, by decide⟩
  intro value identifier_set
  simp [parse_identifier]

/-! ## Claim C10. -/

/-- If the `unicode` attribute loop completes without error, every attribute
it consumed was named `hex`. -/
theorem unicodeAttrs_keys : ∀ (attrs : List (String × String)) (acc r : Option Codepoint),
    unicodeAttrs attrs acc = .ok r → ∀ kv ∈ attrs, kv.1 = "hex" := by
  intro attrs
  induction attrs with
  | nil => intro acc r h kv hkv; simp at hkv
  | cons hd tl ih =>
    intro acc r h kv hkv
    obtain ⟨k, v⟩ := hd
    simp only [unicodeAttrs] at h
    by_cases hk : k = "hex"
    · rw [if_pos hk] at h
      rcases hc : parse_codepoint v with c | e <;> simp only [hc] at h
      · cases hkv with
        | head => exact hk
        | tail _ htl => exact ih _ _ h kv htl
      · simp at h
    · rw [if_neg hk] at h
      simp at h

/-- Claim C10: a `unicode` element with no attributes at all fails with
`InvalidUnicode` (the only way to reach the missing-`hex` check); a
successful parse always consumed a `hex` attribute; and any attribute name
other than `hex` — whether in first position or after a valid `hex` — fails
with `UnexpectedAttribute`. -/
theorem c10_unicode_hex_required :
    parse_unicode [] = .err (.parse .InvalidUnicode) ∧
    (∀ (attrs : List (String × String)) (c : Codepoint),
      parse_unicode attrs = .ok c → ∃ v, ("hex", v) ∈ attrs) ∧
    (∀ (k v : String) (rest : List (String × String)), k ≠ "hex" →
      parse_unicode ((k, v) :: rest) = .err (.parse .UnexpectedAttribute)) ∧
    (∀ (hv k v : String) (rest : List (String × String)) (c : Codepoint),
      parse_codepoint hv = .ok c → k ≠ "hex" →
      parse_unicode (("hex", hv) :: (k, v) :: rest) =
        .err (.parse .UnexpectedAttribute)) := by
  refine ⟨by decide, ?_, ?_, ?_⟩
  · intro attrs c h
    rcases hu : unicodeAttrs attrs none with r | e
    · cases attrs with
      | nil =>
        exfalso
        have : r = none := by
          have := hu
          simp only [unicodeAttrs, Res.ok.injEq] at this
          exact this.symm
        rw [parse_unicode, hu, this] at h
        simp at h
      | cons hd tl =>
        have hkey : hd.1 = "hex" := unicodeAttrs_keys _ _ _ hu hd (List.mem_cons_self _ _)
        refine ⟨hd.2, ?_⟩
        have : ("hex", hd.2) = hd := Prod.ext hkey.symm rfl
        rw [this]
        exact List.mem_cons_self _ _
    · rw [parse_unicode, hu] at h
      simp at h
  · intro k v rest hk
    simp [parse_unicode, unicodeAttrs, hk]
  · intro hv k v rest c hc hk
    simp [parse_unicode, unicodeAttrs, hc, hk]

/-- Witness for `c10_unicode_hex_required`: an unrecognized attribute name
on `unicode` is rejected. -/
theorem c10_unicode_hex_required_witness :
    parse_unicode [("name", "x")] = .err (.parse .UnexpectedAttribute) :=
  c10_unicode_hex_required.2.2.1 "name" "x" [] (by decide)

/-! ## Claim C8. -/

/-- Claim C8: in the `Done` state, end-of-stream returns the completed glyph
record; any other event — except the always-transparent comments and
declarations — fails with `TrailingData`; end-of-stream in any state other
than `Done` fails with `UnexpectedEof`; and the only transition that enters
the `Done` state from outside it is the closing `glyph` tag seen in the
`InGlyph` state. -/
theorem c8_done_state (g : Glyph) (d : DriverSt) (ev : XmlEvent)
    (rest : List XmlEvent) :
    (d.st = .done g → stepD d [] = .ok (.finished g)) ∧
    (d.st = .done g → (∀ s, ev ≠ .comment s) → ev ≠ .decl →
      stepD d (ev :: rest) = .err (.parse .TrailingData)) ∧
    ((∀ g', d.st ≠ .done g') → stepD d [] = .err (.parse .UnexpectedEof)) ∧
    (∀ (d' : DriverSt) (rest' : List XmlEvent),
      stepD d (ev :: rest) = .ok (.next d' rest') → d'.st = .done g →
      d.st = .done g ∨ (d.st = .inGlyph g ∧ ev = .endTag "glyph")) := by
  refine ⟨?_, ?_, ?_, ?_⟩
  · intro hst
    simp [stepD, hst]
  · intro hst hc hd
    cases ev with
    | comment s => exact absurd rfl (hc s)
    | decl => exact absurd rfl hd
    | _ => simp [stepD, hst]
  · intro hne
    rcases hst : d.st with _ | g' | g'
    · simp [stepD, hst]
    · simp [stepD, hst]
    · exact absurd hst (hne g')
  · intro d' rest' h hdone
    simp only [stepD] at h
    repeat' split at h
    all_goals
      first
      | (exfalso; simp at h; done)
      | (simp only [Res.ok.injEq, StepOut.next.injEq] at h
         obtain ⟨h1, -⟩ := h
         subst h1
         first
         | exact Or.inl hdone
         | (left; simp_all; done)
         | (right; simp_all))

/-- Witness for `c8_done_state`: a stray element after the closing `glyph`
tag is `TrailingData`. -/
theorem c8_done_state_witness :
    stepD { st := .done { name := "a", format := .V2 }, seen_advance := false,
            seen_lib := false, identifier_set := [] }
      [.emptyTag "unicode" [("hex", "002E")]] = .err (.parse .TrailingData) :=
  (c8_done_state { name := "a", format := .V2 }
    { st := .done { name := "a", format := .V2 }, seen_advance := false,
      seen_lib := false, identifier_set := [] }
    (.emptyTag "unicode" [("hex", "002E")]) []).2.1 rfl
    (fun s => by simp) (by simp)

/-! ## Claim C9. -/

/-- Claim C9: every state/event combination not matched by a specific
transition rule is a no-op pass-through: the driver locals — the state with
its partially built glyph record, the seen-element flags and the identifier
registry — are returned unchanged and parsing continues with the remaining
events.  In `InGlyph` this covers unrecognized child elements (such as the
whole `outline` subtree), stray text and CData, mismatched end tags, and
doctype/processing-instruction events; in `Start` it covers everything that
is not an opening/self-closing tag. -/
theorem c9_passthrough (d : DriverSt) (rest : List XmlEvent) :
    (∀ (g : Glyph), d.st = .inGlyph g →
      (∀ (n : String) (attrs : List (String × String)), n ≠ "note" → n ≠ "lib" →
        stepD d (.startTag n attrs :: rest) = .ok (.next d rest)) ∧
      (∀ (n : String) (attrs : List (String × String)), n ≠ "unicode" → n ≠ "anchor" →
        n ≠ "guideline" → n ≠ "advance" → n ≠ "image" →
        stepD d (.emptyTag n attrs :: rest) = .ok (.next d rest)) ∧
      (∀ (n : String), n ≠ "glyph" → stepD d (.endTag n :: rest) = .ok (.next d rest)) ∧
      (∀ (s : String), stepD d (.text s :: rest) = .ok (.next d rest)) ∧
      (∀ (s : String), stepD d (.cdata s :: rest) = .ok (.next d rest)) ∧
      stepD d (.doctype :: rest) = .ok (.next d rest) ∧
      stepD d (.procInst :: rest) = .ok (.next d rest)) ∧
    (d.st = .start →
      (∀ (n : String), stepD d (.endTag n :: rest) = .ok (.next d rest)) ∧
      (∀ (s : String), stepD d (.text s :: rest) = .ok (.next d rest)) ∧
      (∀ (s : String), stepD d (.cdata s :: rest) = .ok (.next d rest)) ∧
      stepD d (.doctype :: rest) = .ok (.next d rest) ∧
      stepD d (.procInst :: rest) = .ok (.next d rest)) := by
  constructor
  · intro g hst
    refine ⟨?_, ?_, ?_, ?_, ?_, ?_, ?_⟩
    · intro n attrs h1 h2
      simp [stepD, hst, h1, h2]
    · intro n attrs h1 h2 h3 h4 h5
      simp [stepD, hst, h1, h2, h3, h4, h5]
    · intro n h1
      simp [stepD, hst, h1]
    · intro s; simp [stepD, hst]
    · intro s; simp [stepD, hst]
    · simp [stepD, hst]
    · simp [stepD, hst]
  · intro hst
    refine ⟨?_, ?_, ?_, ?_, ?_⟩
    · intro n; simp [stepD, hst]
    · intro s; simp [stepD, hst]
    · intro s; simp [stepD, hst]
    · simp [stepD, hst]
    · simp [stepD, hst]

/-- Witness for `c9_passthrough`: an `outline` subtree opening tag inside
`glyph` is ignored, leaving the driver locals unchanged. -/
theorem c9_passthrough_witness :
    stepD { st := .inGlyph { name := "a", format := .V2 }, seen_advance := false,
            seen_lib := false, identifier_set := [] }
      [.startTag "outline" []] =
      .ok (.next { st := .inGlyph { name := "a", format := .V2 }, seen_advance := false,
                   seen_lib := false, identifier_set := [] } []) :=
  ((c9_passthrough
      { st := .inGlyph { name := "a", format := .V2 }, seen_advance := false,
        seen_lib := false, identifier_set := [] }
      []).1 { name := "a", format := .V2 } rfl).1 "outline" [] (by simp) (by simp)

/-! ## Claim C2. -/

/-- Whether an attribute list contains an attribute named `k`. -/
def containsKey (k : String) (attrs : List (String × String)) : Bool :=
  attrs.any (fun kv => kv.1 = k)

/-- After a successful run of the `guideline` attribute loop, the x, y and
angle accumulator fields are populated exactly when the corresponding
attribute occurs in the list. -/
theorem guidelineAttrs_presence {glif_format : GlifVersion} :
    ∀ {attrs : List (String × String)} {acc : GuidelineAcc} {set : List Identifier}
      {acc' : GuidelineAcc} {set' : List Identifier},
      guidelineAttrs glif_format attrs acc set = .ok (acc', set') →
      acc'.x.isSome = (acc.x.isSome || containsKey "x" attrs) ∧
      acc'.y.isSome = (acc.y.isSome || containsKey "y" attrs) ∧
      acc'.angle.isSome = (acc.angle.isSome || containsKey "angle" attrs) := by
  intro attrs
  induction attrs with
  | nil =>
    intro acc set acc' set' h
    simp only [guidelineAttrs, Res.ok.injEq, Prod.mk.injEq] at h
    obtain ⟨h1, -⟩ := h
    subst h1
    simp [containsKey]
  | cons hd tl ih =>
    intro acc set acc' set' h
    obtain ⟨k, v⟩ := hd
    simp only [guidelineAttrs] at h
    split_ifs at h with hx hy hang hname hcolor hident
    · subst hx
      rcases hn : parse_number v with n | e
      · simp only [hn] at h
        obtain ⟨h1, h2, h3⟩ := ih h
        simp only at h1 h2 h3
        simp [containsKey, h1, h2, h3]
      · simp [hn] at h
    · subst hy
      rcases hn : parse_number v with n | e
      · simp only [hn] at h
        obtain ⟨h1, h2, h3⟩ := ih h
        simp only at h1 h2 h3
        simp [containsKey, h1, h2, h3, hx]
      · simp [hn] at h
    · subst hang
      rcases hn : parse_number v with n | e
      · simp only [hn] at h
        split at h
        · simp at h
        · obtain ⟨h1, h2, h3⟩ := ih h
          simp only at h1 h2 h3
          simp [containsKey, h1, h2, h3, hx, hy]
      · simp [hn] at h
    · subst hname
      obtain ⟨h1, h2, h3⟩ := ih h
      simp only at h1 h2 h3
      simp [containsKey, h1, h2, h3, hx, hy, hang]
    · subst hcolor
      rcases hc : parse_color v with c | e
      · simp only [hc] at h
        obtain ⟨h1, h2, h3⟩ := ih h
        simp only at h1 h2 h3
        simp [containsKey, h1, h2, h3, hx, hy, hang]
      · simp [hc] at h
    · subst hident
      rcases hi : parse_identifier v set glif_format with p | e
      · simp only [hi] at h
        obtain ⟨h1, h2, h3⟩ := ih h
        simp only at h1 h2 h3
        simp [containsKey, h1, h2, h3, hx, hy, hang, hname]
      · simp [hi] at h

/-- Claim C2: for every guideline element whose attributes all parse
successfully (in particular any present angle is in [0, 360], or the loop
would have failed), the resulting line descriptor is determined exactly by
which of x, y, angle are present: x alone yields Vertical, y alone yields
Horizontal, x + y + angle together yield Angled, and every other presence
combination fails with `InvalidGuideline`. -/
theorem c2_guideline_shapes (attrs : List (String × String))
    (identifier_set : List Identifier) (glif_format : GlifVersion)
    (acc : GuidelineAcc) (set' : List Identifier)
    (h : guidelineAttrs glif_format attrs {} identifier_set = .ok (acc, set')) :
    (containsKey "x" attrs = true → containsKey "y" attrs = false →
      containsKey "angle" attrs = false →
      parse_guideline attrs identifier_set glif_format =
        .ok ({ line := .vertical (acc.x.getD 0), name := acc.name, color := acc.color,
               identifier := acc.identifier }, set')) ∧
    (containsKey "x" attrs = false → containsKey "y" attrs = true →
      containsKey "angle" attrs = false →
      parse_guideline attrs identifier_set glif_format =
        .ok ({ line := .horizontal (acc.y.getD 0), name := acc.name, color := acc.color,
               identifier := acc.identifier }, set')) ∧
    (containsKey "x" attrs = true → containsKey "y" attrs = true →
      containsKey "angle" attrs = true →
      parse_guideline attrs identifier_set glif_format =
        .ok ({ line := .angle (acc.x.getD 0) (acc.y.getD 0) (acc.angle.getD 0),
               name := acc.name, color := acc.color,
               identifier := acc.identifier }, set')) ∧
    (¬(containsKey "x" attrs = true ∧ containsKey "y" attrs = false ∧
        containsKey "angle" attrs = false) →
     ¬(containsKey "x" attrs = false ∧ containsKey "y" attrs = true ∧
        containsKey "angle" attrs = false) →
     ¬(containsKey "x" attrs = true ∧ containsKey "y" attrs = true ∧
        containsKey "angle" attrs = true) →
      parse_guideline attrs identifier_set glif_format =
        .err (.parse .InvalidGuideline)) := by
  obtain ⟨p1, p2, p3⟩ := guidelineAttrs_presence h
  simp only at p1 p2 p3
  refine ⟨?_, ?_, ?_, ?_⟩
  · intro hx hy ha
    rw [hx] at p1; rw [hy] at p2; rw [ha] at p3
    rcases hox : acc.x with _ | xv
    · rw [hox] at p1; simp at p1
    · rcases hoy : acc.y with _ | yv
      · rcases hoa : acc.angle with _ | av
        · simp [parse_guideline, h, hox, hoy, hoa]
        · rw [hoa] at p3; simp at p3
      · rw [hoy] at p2; simp at p2
  · intro hx hy ha
    rw [hx] at p1; rw [hy] at p2; rw [ha] at p3
    rcases hox : acc.x with _ | xv
    · rcases hoy : acc.y with _ | yv
      · rw [hoy] at p2; simp at p2
      · rcases hoa : acc.angle with _ | av
        · simp [parse_guideline, h, hox, hoy, hoa]
        · rw [hoa] at p3; simp at p3
    · rw [hox] at p1; simp at p1
  · intro hx hy ha
    rw [hx] at p1; rw [hy] at p2; rw [ha] at p3
    rcases hox : acc.x with _ | xv
    · rw [hox] at p1; simp at p1
    · rcases hoy : acc.y with _ | yv
      · rw [hoy] at p2; simp at p2
      · rcases hoa : acc.angle with _ | av
        · rw [hoa] at p3; simp at p3
        · simp [parse_guideline, h, hox, hoy, hoa]
  · intro h1 h2 h3
    rcases hox : acc.x with _ | xv <;> rcases hoy : acc.y with _ | yv <;>
      rcases hoa : acc.angle with _ | av <;>
      rw [hox] at p1 <;> rw [hoy] at p2 <;> rw [hoa] at p3 <;>
      simp only [Option.isSome_some, Option.isSome_none, Bool.false_or] at p1 p2 p3
    · simp [parse_guideline, h, hox, hoy, hoa]
    · simp [parse_guideline, h, hox, hoy, hoa]
    · exact absurd ⟨p1.symm, p2.symm, p3.symm⟩ h2
    · simp [parse_guideline, h, hox, hoy, hoa]
    · exact absurd ⟨p1.symm, p2.symm, p3.symm⟩ h1
    · simp [parse_guideline, h, hox, hoy, hoa]
    · simp [parse_guideline, h, hox, hoy, hoa]
    · exact absurd ⟨p1.symm, p2.symm, p3.symm⟩ h3

/-- Witness for `c2_guideline_shapes`: a guideline with only `x="1"` is
Vertical(1). -/
theorem c2_guideline_shapes_witness :
    parse_guideline [("x", "1")] [] .V2 =
      .ok ({ line := .vertical 1, name := none, color := none, identifier := none }, []) :=
  (c2_guideline_shapes [("x", "1")] [] .V2 { x := some 1 } [] (by decide)).1
    (by decide) (by decide) (by decide)

/-! ## Claim C7. -/

/-- Claim C7: a guideline angle attribute is accepted exactly when its
parsed value lies in the closed interval [0, 360]: for any angle literal
`s` parsing to the value `v`, the guideline succeeds (with Angled line)
when 0 ≤ v ≤ 360 and fails with `InvalidAngle` otherwise; in particular
angle="0" and angle="360" are accepted while angle="360.1" and
angle="-0.1" fail with `InvalidAngle`. -/
theorem c7_angle_boundary (s : String) (v : ℚ) (h : parse_number s = .ok v) :
    (0 ≤ v ∧ v ≤ 360 →
      parse_guideline [("x", "0"), ("y", "0"), ("angle", s)] [] .V2 =
        .ok ({ line := .angle 0 0 v, name := none, color := none,
               identifier := none }, [])) ∧
    (¬(0 ≤ v ∧ v ≤ 360) →
      parse_guideline [("x", "0"), ("y", "0"), ("angle", s)] [] .V2 =
        .err (.parse .InvalidAngle)) ∧
    parse_guideline [("x", "0"), ("y", "0"), ("angle", "0")] [] .V2 =
      .ok ({ line := .angle 0 0 0, name := none, color := none,
             identifier := none }, []) ∧
    parse_guideline [("x", "0"), ("y", "0"), ("angle", "360")] [] .V2 =
      .ok ({ line := .angle 0 0 360, name := none, color := none,
             identifier := none }, []) ∧
    parse_guideline [("x", "0"), ("y", "0"), ("angle", "360.1")] [] .V2 =
      .err (.parse .InvalidAngle) ∧
    parse_guideline [("x", "0"), ("y", "0"), ("angle", "-0.1")] [] .V2 =
      .err (.parse .InvalidAngle) := by
  have e0 : parse_number "0" = .ok 0 := by decide
  refine ⟨?_, ?_, by decide, by decide, by decide, by decide⟩
  · intro hin
    simp [parse_guideline, guidelineAttrs, e0, h, hin.1, hin.2]
  · intro hout
    simp [parse_guideline, guidelineAttrs, e0, h, hout]

/-- Witness for `c7_angle_boundary`: angle="400" parses to 400, which is out
of range, so the guideline fails with `InvalidAngle`. -/
theorem c7_angle_boundary_witness :
    parse_guideline [("x", "0"), ("y", "0"), ("angle", "400")] [] .V2 =
      .err (.parse .InvalidAngle) :=
  (c7_angle_boundary "400" 400 (by decide)).2.1 (by norm_num)

/-! ## Claim C3. -/

/-- A successful identifier registration only adds to the registry. -/
theorem parse_identifier_subset {value : String} {set : List Identifier}
    {glif_format : GlifVersion} {id : Identifier} {set' : List Identifier}
    (h : parse_identifier value set glif_format = .ok (id, set')) : set ⊆ set' := by
  by_cases h1 : glif_format = .V1
  · simp [parse_identifier, h1] at h
  · simp only [parse_identifier, if_neg h1] at h
    by_cases h2 : identifierValid value = true
    · rw [if_pos h2] at h
      by_cases h3 : value ∈ set
      · rw [if_pos h3] at h; simp at h
      · rw [if_neg h3] at h
        simp only [Res.ok.injEq, Prod.mk.injEq] at h
        rw [← h.2]
        exact fun x hx => List.mem_cons_of_mem _ hx
    · rw [if_neg h2] at h; simp at h

/-- The anchor attribute loop only adds to the registry. -/
theorem anchorAttrs_subset {glif_format : GlifVersion} :
    ∀ {attrs : List (String × String)} {acc : AnchorAcc} {set : List Identifier}
      {acc' : AnchorAcc} {set' : List Identifier},
      anchorAttrs glif_format attrs acc set = .ok (acc', set') → set ⊆ set' := by
  intro attrs
  induction attrs with
  | nil =>
    intro acc set acc' set' h
    simp only [anchorAttrs, Res.ok.injEq, Prod.mk.injEq] at h
    rw [← h.2]
    exact List.Subset.refl _
  | cons hd tl ih =>
    intro acc set acc' set' h
    obtain ⟨k, v⟩ := hd
    simp only [anchorAttrs] at h
    split_ifs at h with hx hy hname hcolor hident
    · rcases hn : parse_number v with n | e
      · simp only [hn] at h; exact ih h
      · simp [hn] at h
    · rcases hn : parse_number v with n | e
      · simp only [hn] at h; exact ih h
      · simp [hn] at h
    · exact ih h
    · rcases hc : parse_color v with c | e
      · simp only [hc] at h; exact ih h
      · simp [hc] at h
    · rcases hi : parse_identifier v set glif_format with p | e
      · simp only [hi] at h
        exact List.Subset.trans (parse_identifier_subset ((Prod.mk.eta (p := p)) ▸ hi)) (ih h)
      · simp [hi] at h

/-- The guideline attribute loop only adds to the registry. -/
theorem guidelineAttrs_subset {glif_format : GlifVersion} :
    ∀ {attrs : List (String × String)} {acc : GuidelineAcc} {set : List Identifier}
      {acc' : GuidelineAcc} {set' : List Identifier},
      guidelineAttrs glif_format attrs acc set = .ok (acc', set') → set ⊆ set' := by
  intro attrs
  induction attrs with
  | nil =>
    intro acc set acc' set' h
    simp only [guidelineAttrs, Res.ok.injEq, Prod.mk.injEq] at h
    rw [← h.2]
    exact List.Subset.refl _
  | cons hd tl ih =>
    intro acc set acc' set' h
    obtain ⟨k, v⟩ := hd
    simp only [guidelineAttrs] at h
    split_ifs at h with hx hy hang hname hcolor hident
    · rcases hn : parse_number v with n | e
      · simp only [hn] at h; exact ih h
      · simp [hn] at h
    · rcases hn : parse_number v with n | e
      · simp only [hn] at h; exact ih h
      · simp [hn] at h
    · rcases hn : parse_number v with n | e
      · simp only [hn] at h
        split at h
        · simp at h
        · exact ih h
      · simp [hn] at h
    · exact ih h
    · rcases hc : parse_color v with c | e
      · simp only [hc] at h; exact ih h
      · simp [hc] at h
    · rcases hi : parse_identifier v set glif_format with p | e
      · simp only [hi] at h
        exact List.Subset.trans (parse_identifier_subset ((Prod.mk.eta (p := p)) ▸ hi)) (ih h)
      · simp [hi] at h

/-- `parse_anchor` only adds to the registry. -/
theorem parse_anchor_subset {attrs : List (String × String)} {set : List Identifier}
    {glif_format : GlifVersion} {anchor : Anchor} {set' : List Identifier}
    (h : parse_anchor attrs set glif_format = .ok (anchor, set')) : set ⊆ set' := by
  simp only [parse_anchor] at h
  rcases ha : anchorAttrs glif_format attrs {} set with p | e
  · rw [ha] at h
    have hsub : set ⊆ p.2 := anchorAttrs_subset ((Prod.mk.eta (p := p)) ▸ ha)
    rcases hx : p.1.x with _ | xv <;> rcases hy : p.1.y with _ | yv <;>
      simp only [hx, hy] at h <;> simp at h
    rw [← h.2]
    exact hsub
  · rw [ha] at h; simp at h

/-- `parse_guideline` only adds to the registry. -/
theorem parse_guideline_subset {attrs : List (String × String)} {set : List Identifier}
    {glif_format : GlifVersion} {guideline : Guideline} {set' : List Identifier}
    (h : parse_guideline attrs set glif_format = .ok (guideline, set')) : set ⊆ set' := by
  simp only [parse_guideline] at h
  rcases hg : guidelineAttrs glif_format attrs {} set with p | e
  · rw [hg] at h
    have hsub : set ⊆ p.2 := guidelineAttrs_subset ((Prod.mk.eta (p := p)) ▸ hg)
    rcases hx : p.1.x with _ | xv <;> rcases hy : p.1.y with _ | yv <;>
      rcases ha : p.1.angle with _ | av <;> simp only [hx, hy, ha] at h <;>
      first
      | (simp at h; done)
      | (simp only [Res.ok.injEq, Prod.mk.injEq] at h
         rw [← h.2]
         exact hsub)
  · rw [hg] at h; simp at h

/-- One unfolding of the driver loop on a continuing step. -/
theorem runFuel_next {fuel : Nat} {d d' : DriverSt} {events rest : List XmlEvent}
    (h : stepD d events = .ok (.next d' rest)) :
    runFuel (fuel + 1) d events = runFuel fuel d' rest := by
  simp only [runFuel, h]

/-- One unfolding of the driver loop on a failing step. -/
theorem runFuel_err {fuel : Nat} {d : DriverSt} {events : List XmlEvent} {e : Error}
    (h : stepD d events = .err e) :
    runFuel (fuel + 1) d events = .err e := by
  simp only [runFuel, h]

/-- An identifier-bearing element of either kind: an anchor
`<anchor x="1" y="1" identifier=v/>` or a guideline
`<guideline x="1" identifier=v/>`. -/
def identElem : Bool → String → XmlEvent
  | true, v => .emptyTag "anchor" [("x", "1"), ("y", "1"), ("identifier", v)]
  | false, v => .emptyTag "guideline" [("x", "1"), ("identifier", v)]

/-- The glyph record after folding in an `identElem`. -/
def identElemGlyph (g : Glyph) : Bool → String → Glyph
  | true, v => { g with anchors := g.anchors ++ [{ x := 1, y := 1, identifier := some v }] }
  | false, v =>
    { g with guidelines := g.guidelines ++ [{ line := .vertical 1, identifier := some v }] }

/-- The driver locals after folding an `identElem`: the element is pushed
into the glyph record and the identifier onto the registry. -/
def identElemNext (d : DriverSt) (g : Glyph) (k : Bool) (v : String) : DriverSt :=
  { d with st := .inGlyph (identElemGlyph g k v), identifier_set := v :: d.identifier_set }

/-- Folding an `identElem` with a fresh valid identifier succeeds and pushes
the identifier onto the registry. -/
theorem identElem_step_ok (d : DriverSt) (g : Glyph) (k : Bool) (v : String)
    (t : List XmlEvent) (hst : d.st = .inGlyph g) (hfmt : g.format = .V2)
    (hval : identifierValid v = true) (hmem : v ∉ d.identifier_set) :
    stepD d (identElem k v :: t) = .ok (.next (identElemNext d g k v) t) := by
  have pn1 : parse_number "1" = .ok 1 := by decide
  have hpid : parse_identifier v d.identifier_set .V2 = .ok (v, v :: d.identifier_set) := by
    simp [parse_identifier, hval, hmem]
  cases k
  · have hg : parse_guideline [("x", "1"), ("identifier", v)] d.identifier_set .V2 =
        .ok ({ line := .vertical 1, name := none, color := none, identifier := some v },
             v :: d.identifier_set) := by
      simp [parse_guideline, guidelineAttrs, hpid, pn1]
    simp [stepD, identElem, hst, hfmt, hg, identElemGlyph, identElemNext]
  · have ha : parse_anchor [("x", "1"), ("y", "1"), ("identifier", v)] d.identifier_set .V2 =
        .ok ({ x := 1, y := 1, name := none, color := none, identifier := some v },
             v :: d.identifier_set) := by
      simp [parse_anchor, anchorAttrs, hpid, pn1]
    simp [stepD, identElem, hst, hfmt, ha, identElemGlyph, identElemNext]

/-- Folding an `identElem` whose identifier is already registered fails with
`DuplicateIdentifier`. -/
theorem identElem_step_dup (d : DriverSt) (g : Glyph) (k : Bool) (v : String)
    (t : List XmlEvent) (hst : d.st = .inGlyph g) (hfmt : g.format = .V2)
    (hval : identifierValid v = true) (hmem : v ∈ d.identifier_set) :
    stepD d (identElem k v :: t) = .err (.parse .DuplicateIdentifier) := by
  have pn1 : parse_number "1" = .ok 1 := by decide
  have hpid : parse_identifier v d.identifier_set .V2 = .err (.parse .DuplicateIdentifier) := by
    simp [parse_identifier, hval, hmem]
  cases k
  · have hg : parse_guideline [("x", "1"), ("identifier", v)] d.identifier_set .V2 =
        .err (.parse .DuplicateIdentifier) := by
      simp [parse_guideline, guidelineAttrs, hpid, pn1]
    simp [stepD, identElem, hst, hfmt, hg]
  · have ha : parse_anchor [("x", "1"), ("y", "1"), ("identifier", v)] d.identifier_set .V2 =
        .err (.parse .DuplicateIdentifier) := by
      simp [parse_anchor, anchorAttrs, hpid, pn1]
    simp [stepD, identElem, hst, hfmt, ha]

/-- A document whose glyph holds two identifier-bearing elements (of the
kinds selected by `k1` and `k2`) both carrying the identifier value `v`. -/
def dupIdentDoc (k1 k2 : Bool) (v : String) : List XmlEvent :=
  [glyphHeader2, identElem k1 v, identElem k2 v, .endTag "glyph"]

/-- The glyph record built by the `dupIdentDoc` header. -/
def dupIdentG0 : Glyph :=
  { name := "a", format := .V2 }

/-- The driver locals after the `dupIdentDoc` header. -/
def dupIdentD1 : DriverSt :=
  { st := .inGlyph dupIdentG0 }

/-- The driver locals after the first identifier-bearing element. -/
def dupIdentD2 (k1 : Bool) (v : String) : DriverSt :=
  { st := .inGlyph (identElemGlyph dupIdentG0 k1 v), identifier_set := [v] }

/-- Claim C3: accepted identifiers are collected in the single registry
threaded through every step of one parse, and that registry never shrinks:
every continuing step maps the registry to a superset.  Moreover, for any
two identifier-bearing element kinds (anchor or guideline, chosen by `k1`
and `k2`) and any valid identifier value `v`, the document carrying `v` on
both elements fails with `DuplicateIdentifier` at the second occurrence. -/
theorem c3_identifier_registry :
    (∀ (d : DriverSt) (events : List XmlEvent) (d' : DriverSt) (rest : List XmlEvent),
      stepD d events = .ok (.next d' rest) →
      d.identifier_set ⊆ d'.identifier_set) ∧
    (∀ (k1 k2 : Bool) (v : String), identifierValid v = true →
      parse_glif (dupIdentDoc k1 k2 v) = .err (.parse .DuplicateIdentifier)) := by
  constructor
  · intro d events d' rest h
    cases events with
    | nil =>
      simp only [stepD] at h
      rcases hst : d.st with _ | g | g <;> rw [hst] at h <;> simp at h
    | cons ev tl =>
      simp only [stepD] at h
      repeat' split at h
      all_goals
        first
        | (exfalso; simp at h; done)
        | (simp only [Res.ok.injEq, StepOut.next.injEq] at h
           obtain ⟨h1, -⟩ := h
           subst h1
           first
           | exact List.Subset.refl _
           | (rename_i heq
              exact parse_anchor_subset heq)
           | (rename_i heq
              exact parse_guideline_subset heq))
  · intro k1 k2 v hval
    have h1 : stepD glifInit (dupIdentDoc k1 k2 v) =
        .ok (.next dupIdentD1 (identElem k1 v :: identElem k2 v :: [.endTag "glyph"])) := rfl
    have h2 : stepD dupIdentD1 (identElem k1 v :: identElem k2 v :: [.endTag "glyph"]) =
        .ok (.next (dupIdentD2 k1 v) (identElem k2 v :: [.endTag "glyph"])) := by
      have := identElem_step_ok dupIdentD1 dupIdentG0 k1 v
        (identElem k2 v :: [.endTag "glyph"]) rfl rfl hval (by simp [dupIdentD1])
      exact this
    have h3 : stepD (dupIdentD2 k1 v) (identElem k2 v :: [.endTag "glyph"]) =
        .err (.parse .DuplicateIdentifier) := by
      refine identElem_step_dup (dupIdentD2 k1 v) (identElemGlyph dupIdentG0 k1 v) k2 v
        [.endTag "glyph"] rfl ?_ hval (by simp [dupIdentD2])
      cases k1 <;> simp [identElemGlyph, dupIdentG0]
    calc parse_glif (dupIdentDoc k1 k2 v)
        = runFuel (4 + 1) glifInit (dupIdentDoc k1 k2 v) := rfl
      _ = runFuel (3 + 1) dupIdentD1 (identElem k1 v :: identElem k2 v :: [.endTag "glyph"]) :=
          runFuel_next h1
      _ = runFuel (2 + 1) (dupIdentD2 k1 v) (identElem k2 v :: [.endTag "glyph"]) :=
          runFuel_next h2
      _ = .err (.parse .DuplicateIdentifier) := runFuel_err h3

/-- Witness for `c3_identifier_registry`: an anchor and a guideline sharing
the identifier "a1". -/
theorem c3_identifier_registry_witness :
    parse_glif (dupIdentDoc true false "a1") = .err (.parse .DuplicateIdentifier) :=
  c3_identifier_registry.2 true false "a1" (by decide)

end UfoGlif
